import Mathlib

/-!
Verification of `stateful_decoder.py`: a one-shot comparison harness that
loads a RADAE autoencoder checkpoint, copies the trained batch-decoder
weights into a stateful decoder variant, runs both decoders over the same
latent sequence, prints three distortion losses (optionally a PASS/FAIL
verdict), and writes the zero-padded stateful output to a file.

32-bit floats are modelled as rationals; the external RADAE model library
(encoder, decoders, distortion loss, frame-count rounding) is modelled as a
structure of abstract functions, since only the script itself is in scope.
-/

namespace StatefulDecoder

/-- A 32-bit float value, modelled as a rational number. -/
abbrev F32 := ℚ

/-- One feature vector (a row of channels). -/
abbrev Frame := List F32

/-- A sequence of feature vectors (the time axis; the batch axis is
always 1 in the script and is elided). -/
abbrev Frames := List Frame

/-- A decoder parameter set (torch state dict), modelled as an
association list of named parameter values. -/
abbrev StateDict := List (String × F32)

/-- `nb_total_features = 36` in the script. -/
def nb_total_features : Nat := 36

/-- `num_features = 20` in the script. -/
def num_features : Nat := 20

/-- `num_used_features = 20` in the script. -/
def num_used_features : Nat := 20

/-- Modelled from the spec: the external RADAE model library object
(`from radae import RADAE`), not present under `src/`.  The encoder, the
two decoder variants, the distortion loss and the frame-count rounding
function are opaque to the script, so they are abstract function fields;
each decoder variant is a function of its current parameter set, and
`load_state_dict` (torch semantics, strict replacement of the parameter
set) is modelled as replacing the corresponding state-dict field. -/
structure RADAE where
  num_10ms_times_steps_rounded_to_modem_frames : Nat → Nat
  core_encoder : Frames → Frames
  core_decoder_fun : StateDict → Frames → Frames
  core_decoder_statefull_fun : StateDict → Frames → Frames
  core_decoder_sd : StateDict
  core_decoder_statefull_sd : StateDict
  distortion_loss : Frames → Frames → F32

/-- `model.core_decoder_statefull.load_state_dict(model.core_decoder.state_dict())`:
the stateful decoder's parameter set becomes the batch decoder's. -/
def copy_statefull_weights (m : RADAE) : RADAE :=
  { m with core_decoder_statefull_sd := m.core_decoder_sd }

/-- Row-major frame `i` of a flat float buffer reshaped to
`(1, -1, nb_total_features)`. -/
def frameAt (xs : List F32) (i : Nat) : Frame :=
  (List.range nb_total_features).map (fun j => xs.getD (i * nb_total_features + j) 0)

/-- `np.reshape(np.fromfile(...), (1, -1, nb_total_features))`: succeeds
exactly when the float count is a multiple of 36 (otherwise numpy raises
ValueError), yielding the row-major frames. -/
def reshape_features (xs : List F32) : Option Frames :=
  if xs.length % nb_total_features = 0 then
    some ((List.range (xs.length / nb_total_features)).map (frameAt xs))
  else none

/-- The frames of the input buffer (meaningful when the reshape succeeds). -/
def frames_of (input : List F32) : Frames :=
  (reshape_features input).getD []

/-- `nb_features_rounded = model.num_10ms_times_steps_rounded_to_modem_frames(features_in.shape[1])`. -/
def nb_features_rounded (m : RADAE) (input : List F32) : Nat :=
  m.num_10ms_times_steps_rounded_to_modem_frames (frames_of input).length

/-- `features = features_in[:,:nb_features_rounded,:]` then
`features[:, :, :num_used_features]`: frame truncation followed by
channel selection. -/
def features_of (m : RADAE) (input : List F32) : Frames :=
  ((frames_of input).take (nb_features_rounded m input)).map
    (fun fr => fr.take num_used_features)

/-- `z = model.core_encoder(features)` (after the weight copy). -/
def z_of (m : RADAE) (input : List F32) : Frames :=
  (copy_statefull_weights m).core_encoder (features_of m input)

/-- `features_hat = model.core_decoder(z)`. -/
def features_hat_of (m : RADAE) (input : List F32) : Frames :=
  (copy_statefull_weights m).core_decoder_fun
    (copy_statefull_weights m).core_decoder_sd (z_of m input)

/-- `features_hat_statefull = model.core_decoder_statefull(z)`. -/
def features_hat_statefull_of (m : RADAE) (input : List F32) : Frames :=
  (copy_statefull_weights m).core_decoder_statefull_fun
    (copy_statefull_weights m).core_decoder_statefull_sd (z_of m input)

/-- `loss = distortion_loss(features, features_hat)`. -/
def loss_of (m : RADAE) (input : List F32) : F32 :=
  m.distortion_loss (features_of m input) (features_hat_of m input)

/-- `loss_statefull = distortion_loss(features, features_hat_statefull)`. -/
def loss_statefull_of (m : RADAE) (input : List F32) : F32 :=
  m.distortion_loss (features_of m input) (features_hat_statefull_of m input)

/-- `loss_delta = distortion_loss(features_hat, features_hat_statefull)`. -/
def loss_delta_of (m : RADAE) (input : List F32) : F32 :=
  m.distortion_loss (features_hat_of m input) (features_hat_statefull_of m input)

/-- One line printed to standard output (formatting elided; the payload
values are kept). -/
inductive OutLine where
  | processing (n : Nat)
  | losses (l ls ld : F32)
  | pass
  | fail
deriving DecidableEq

/-- The observable outcome of a completed run: the standard-output lines
and the floats written to the `features_hat` output file. -/
structure RunOutput where
  stdout : List OutLine
  out_file : List F32
deriving DecidableEq

/-- `torch.cat([x, torch.zeros_like(x)[:,:,:16]], dim=-1)`: each frame
gets `min(channels, 16)` trailing zero channels appended. -/
def pad_statefull (frames : Frames) : Frames :=
  frames.map (fun fr => fr ++ List.replicate (min fr.length 16) (0 : F32))

/-- The floats written to the output file: padded stateful output,
flattened row-major (`.flatten().astype('float32').tofile(...)`). -/
def out_file_of (m : RADAE) (input : List F32) : List F32 :=
  (pad_statefull (features_hat_statefull_of m input)).flatten

/-- The standard-output lines of a completed run: the processing message,
the three losses, and — only when `loss_test > 0` — a PASS or FAIL line
(`PASS` iff `loss_statefull < loss_test and loss_delta < 0.01`). -/
def stdout_of (m : RADAE) (loss_test : F32) (input : List F32) : List OutLine :=
  [OutLine.processing (nb_features_rounded m input),
   OutLine.losses (loss_of m input) (loss_statefull_of m input) (loss_delta_of m input)]
  ++ (if loss_test > 0 then
        [if loss_statefull_of m input < loss_test ∧ loss_delta_of m input < 1/100
         then OutLine.pass else OutLine.fail]
      else [])

/-- The whole script on a loaded model, the `--loss_test` value and the
raw input floats: the reshape may fail (numpy ValueError terminates the
process before inference and before the output file is written);
otherwise the run completes with its stdout lines and output file. -/
def run (m : RADAE) (loss_test : F32) (input : List F32) : Except String RunOutput :=
  match reshape_features input with
  | none => .error "cannot reshape array into shape"
  | some _ => .ok { stdout := stdout_of m loss_test input
                    out_file := out_file_of m input }

/-- The parsed command line (`args` in the script). -/
structure Args where
  model_name : String
  features : String
  features_hat : String
  latent_dim : Int
  loss_test : F32
deriving DecidableEq

/-- A token that looks like an optional flag (starts with `--`). -/
def isFlag (s : String) : Bool :=
  match s.data with
  | '-' :: '-' :: _ => true
  | _ => false

/-- The numeric value of a decimal digit character, if it is one. -/
def charDigit (c : Char) : Option Nat :=
  if '0' ≤ c ∧ c ≤ '9' then some (c.toNat - 48) else none

/-- A non-empty run of decimal digits read as a natural number. -/
def natOfDigits (cs : List Char) : Option Nat :=
  if cs.isEmpty then none
  else cs.foldl (fun acc? c => acc?.bind (fun acc =>
    (charDigit c).map (fun d => acc * 10 + d))) (some 0)

/-- An optionally negated run of digits read as an integer
(argparse `type=int` on well-formed input). -/
def intOfChars (cs : List Char) : Option Int :=
  match cs with
  | '-' :: rest => (natOfDigits rest).map (fun n => -(n : Int))
  | _ => (natOfDigits cs).map (fun n => (n : Int))

/-- A decimal literal such as `0.25` or `-3`, read as a rational
(argparse `type=float` on well-formed input). -/
def decimalOfChars (cs : List Char) : Option F32 :=
  let intPart := cs.takeWhile (fun c => c ≠ '.')
  match cs.dropWhile (fun c => c ≠ '.') with
  | [] => (intOfChars cs).map (fun i => (i : F32))
  | _ :: frac =>
    match intOfChars intPart, natOfDigits frac with
    | some i, some fn =>
      let mag : F32 := (fn : F32) / ((10 : F32) ^ frac.length)
      some (if intPart.headD ' ' = '-' then (i : F32) - mag else (i : F32) + mag)
    | _, _ => none

/-- Modelled from the spec: the argparse scan of the command line, absent
from `src/` (Python stdlib).  Positional tokens are collected in order;
`--latent-dim` (int) and `--loss_test` (float) each consume the next
token; any other `--` token is rejected.  The accumulators start at the
declared defaults 80 and 0.0. -/
def parseArgsAux : List String → List String → Int → F32 →
    Except String (List String × Int × F32)
  | [], pos, ld, lt => .ok (pos, ld, lt)
  | t :: rest, pos, ld, lt =>
    if t = "--latent-dim" then
      match rest with
      | [] => .error "argument --latent-dim: expected one argument"
      | v :: rest2 =>
        match intOfChars v.data with
        | some i => parseArgsAux rest2 pos i lt
        | none => .error "argument --latent-dim: invalid int value"
    else if t = "--loss_test" then
      match rest with
      | [] => .error "argument --loss_test: expected one argument"
      | v :: rest2 =>
        match decimalOfChars v.data with
        | some q => parseArgsAux rest2 pos ld q
        | none => .error "argument --loss_test: invalid float value"
    else if isFlag t then .error "unrecognized arguments"
    else parseArgsAux rest (pos ++ [t]) ld lt

/-- `parser.parse_args()`: exactly the three positionals `model_name`,
`features`, `features_hat` are required, with `--latent-dim` defaulting
to 80 and `--loss_test` defaulting to 0.0. -/
def parseArgs (argv : List String) : Except String Args :=
  match parseArgsAux argv [] 80 0 with
  | .error e => .error e
  | .ok (pos, ld, lt) =>
    match pos with
    | [mn, f, fh] =>
      .ok { model_name := mn, features := f, features_hat := fh
            latent_dim := ld, loss_test := lt }
    | ps =>
      if ps.length < 3 then .error "the following arguments are required"
      else .error "unrecognized arguments"

/-- Modelled from the spec: shape behaviour of the external stateful
decoder — applied (with any parameter set) to the encoder's latent
sequence it reconstructs one feature vector of `num_used_features`
channels per input feature vector, so that the reconstruction is
comparable with the encoder input. -/
def DecoderShapeOK (m : RADAE) : Prop :=
  ∀ sd fs, (m.core_decoder_statefull_fun sd (m.core_encoder fs)).length = fs.length
    ∧ ∀ fr ∈ m.core_decoder_statefull_fun sd (m.core_encoder fs),
        fr.length = num_used_features

/-- Modelled from the spec: `num_10ms_times_steps_rounded_to_modem_frames`
truncates a 10ms-step count down to the model's modem-frame granularity,
so it never exceeds its argument. -/
def RoundingOK (m : RADAE) : Prop :=
  ∀ n, m.num_10ms_times_steps_rounded_to_modem_frames n ≤ n

/-- A small concrete model instance used to exercise the pipeline. -/
def testModel : RADAE where
  num_10ms_times_steps_rounded_to_modem_frames := fun n => n - n % 2
  core_encoder := fun fs => fs
  core_decoder_fun := fun sd fs =>
    fs.map (fun fr => List.replicate num_used_features ((sd.getD 0 ("", 0)).2 + fr.headD 0))
  core_decoder_statefull_fun := fun sd fs =>
    fs.map (fun fr => List.replicate num_used_features ((sd.getD 0 ("", 0)).2 * fr.headD 0))
  core_decoder_sd := [("w0", 0)]
  core_decoder_statefull_sd := [("w0", 7)]
  distortion_loss := fun a b =>
    (List.zip a.flatten b.flatten).foldl (fun acc p => acc + (p.1 - p.2) ^ 2) 0

/-- Whether a stdout line is a loss report. -/
def isLossLine : OutLine → Bool
  | OutLine.losses _ _ _ => true
  | _ => false

/-! ## Claim theorems -/

/-- C4: after the checkpoint is loaded, the weight-copy step makes the
stateful decoder's parameter set exactly equal to the batch decoder's
(which is itself unchanged), and every later stateful inference runs with
the batch decoder's weights. -/
theorem c4_statefull_weights_copied (m : RADAE) (input : List F32) :
    (copy_statefull_weights m).core_decoder_statefull_sd
        = (copy_statefull_weights m).core_decoder_sd
    ∧ (copy_statefull_weights m).core_decoder_sd = m.core_decoder_sd
    ∧ features_hat_statefull_of m input
        = m.core_decoder_statefull_fun m.core_decoder_sd (z_of m input) :=
  ⟨rfl, rfl, rfl⟩

/-- C7: the run is deterministic — two runs over the same loaded model,
the same `--loss_test` value and the same input floats produce the same
outcome (same stdout, same output file). -/
theorem c7_deterministic (m : RADAE) (loss_test : F32) (input : List F32)
    (o₁ o₂ : Except String RunOutput)
    (h₁ : run m loss_test input = o₁) (h₂ : run m loss_test input = o₂) :
    o₁ = o₂ := by
  rw [← h₁, ← h₂]

/-- Witness for C7 at a concrete model and input. -/
theorem c7_deterministic_witness :
    run testModel 0 (List.replicate 36 1) = run testModel 0 (List.replicate 36 1) :=
  c7_deterministic testModel 0 (List.replicate 36 1) _ _ rfl rfl

/-- C9: when the float count of the input file is not a multiple of 36
the reshape fails, so the run terminates with an error before any
inference and before any output file is produced. -/
theorem c9_reshape_error (m : RADAE) (loss_test : F32) (input : List F32)
    (h : input.length % nb_total_features ≠ 0) :
    run m loss_test input = .error "cannot reshape array into shape" := by
  unfold run reshape_features
  simp [h]

/-- Witness for C9 at a one-float input. -/
theorem c9_reshape_error_witness :
    run testModel 1 [0] = .error "cannot reshape array into shape" :=
  c9_reshape_error testModel 1 [0] (by decide)

/-- C5: with `--loss_test` at its default 0.0 (or any non-positive
value), a completing run prints exactly the processing message and the
three losses — neither PASS nor FAIL appears. -/
theorem c5_no_verdict_when_disabled (m : RADAE) (loss_test : F32) (input : List F32)
    (hlt : loss_test ≤ 0) (hdiv : input.length % nb_total_features = 0) :
    ∃ out, run m loss_test input = .ok out
      ∧ out.stdout = [OutLine.processing (nb_features_rounded m input),
          OutLine.losses (loss_of m input) (loss_statefull_of m input) (loss_delta_of m input)]
      ∧ OutLine.pass ∉ out.stdout ∧ OutLine.fail ∉ out.stdout := by
  have hng : ¬ loss_test > 0 := not_lt.mpr hlt
  refine ⟨{ stdout := stdout_of m loss_test input, out_file := out_file_of m input },
    ?_, ?_, ?_, ?_⟩
  · unfold run reshape_features
    simp [hdiv]
  · simp [stdout_of, hng]
  · simp [stdout_of, hng]
  · simp [stdout_of, hng]

/-- Witness for C5 at a concrete model and input. -/
theorem c5_no_verdict_when_disabled_witness :
    ∃ out, run testModel 0 (List.replicate 36 1) = .ok out
      ∧ out.stdout = [OutLine.processing (nb_features_rounded testModel (List.replicate 36 1)),
          OutLine.losses (loss_of testModel (List.replicate 36 1))
            (loss_statefull_of testModel (List.replicate 36 1))
            (loss_delta_of testModel (List.replicate 36 1))]
      ∧ OutLine.pass ∉ out.stdout ∧ OutLine.fail ∉ out.stdout :=
  c5_no_verdict_when_disabled testModel 0 (List.replicate 36 1) (by norm_num) (by decide)

/-- C1: with a positive `--loss_test` threshold, a completing run prints
PASS exactly when the stateful loss is strictly below the threshold and
the delta loss is strictly below the fixed bound 0.01, and prints FAIL
in every other case. -/
theorem c1_pass_fail (m : RADAE) (loss_test : F32) (input : List F32)
    (hlt : loss_test > 0) (hdiv : input.length % nb_total_features = 0) :
    ∃ out, run m loss_test input = .ok out
      ∧ (OutLine.pass ∈ out.stdout ↔
          loss_statefull_of m input < loss_test ∧ loss_delta_of m input < 1/100)
      ∧ (OutLine.fail ∈ out.stdout ↔
          ¬ (loss_statefull_of m input < loss_test ∧ loss_delta_of m input < 1/100)) := by
  refine ⟨{ stdout := stdout_of m loss_test input, out_file := out_file_of m input },
    ?_, ?_, ?_⟩
  · unfold run reshape_features
    simp [hdiv]
  · show OutLine.pass ∈ stdout_of m loss_test input ↔ _
    rw [stdout_of, if_pos hlt]
    by_cases hc : loss_statefull_of m input < loss_test ∧ loss_delta_of m input < 1/100
    · rw [if_pos hc]
      simpa using hc
    · rw [if_neg hc]
      simpa using hc
  · show OutLine.fail ∈ stdout_of m loss_test input ↔ _
    rw [stdout_of, if_pos hlt]
    by_cases hc : loss_statefull_of m input < loss_test ∧ loss_delta_of m input < 1/100
    · rw [if_pos hc]
      simpa using hc
    · rw [if_neg hc]
      simpa using hc

/-- Witness for C1 at a concrete model, threshold and input. -/
theorem c1_pass_fail_witness :
    ∃ out, run testModel 1 (List.replicate 36 1) = .ok out
      ∧ (OutLine.pass ∈ out.stdout ↔
          loss_statefull_of testModel (List.replicate 36 1) < 1
            ∧ loss_delta_of testModel (List.replicate 36 1) < 1/100)
      ∧ (OutLine.fail ∈ out.stdout ↔
          ¬ (loss_statefull_of testModel (List.replicate 36 1) < 1
            ∧ loss_delta_of testModel (List.replicate 36 1) < 1/100)) :=
  c1_pass_fail testModel 1 (List.replicate 36 1) (by norm_num) (by decide)

/-- C10: the output-file write does not depend on the loss test — any
two completing runs differing only in the `--loss_test` value write the
same floats, namely the flattened zero-padded stateful decoder output. -/
theorem c10_write_unconditional (m : RADAE) (lt₁ lt₂ : F32) (input : List F32)
    (hdiv : input.length % nb_total_features = 0) :
    ∃ o₁ o₂, run m lt₁ input = .ok o₁ ∧ run m lt₂ input = .ok o₂
      ∧ o₁.out_file = o₂.out_file
      ∧ o₁.out_file = (pad_statefull (features_hat_statefull_of m input)).flatten := by
  refine ⟨{ stdout := stdout_of m lt₁ input, out_file := out_file_of m input },
    { stdout := stdout_of m lt₂ input, out_file := out_file_of m input },
    ?_, ?_, rfl, rfl⟩
  · unfold run reshape_features
    simp [hdiv]
  · unfold run reshape_features
    simp [hdiv]

/-- Witness for C10 at a concrete model and input, with thresholds 1 and 0. -/
theorem c10_write_unconditional_witness :
    ∃ o₁ o₂, run testModel 1 (List.replicate 36 1) = .ok o₁
      ∧ run testModel 0 (List.replicate 36 1) = .ok o₂
      ∧ o₁.out_file = o₂.out_file
      ∧ o₁.out_file
          = (pad_statefull (features_hat_statefull_of testModel (List.replicate 36 1))).flatten :=
  c10_write_unconditional testModel 1 0 (List.replicate 36 1) (by decide)

/-- C3: the input floats are reshaped row-major into 36-channel frames,
the frame sequence is truncated to the model's rounded frame count
(applied to the raw frame count), and only the first 20 channels of each
retained frame survive: retained frame `i`, channel `j` is input float
`i * 36 + j`. -/
theorem c3_preprocessing (m : RADAE) (input : List F32)
    (hdiv : input.length % nb_total_features = 0) :
    (features_of m input).length
        = min (m.num_10ms_times_steps_rounded_to_modem_frames
                (input.length / nb_total_features))
              (input.length / nb_total_features)
    ∧ ∀ i, i < (features_of m input).length →
        (features_of m input).getD i []
          = (List.range num_used_features).map
              (fun j => input.getD (i * nb_total_features + j) 0) := by
  have hfr : frames_of input
      = (List.range (input.length / nb_total_features)).map (frameAt input) := by
    unfold frames_of reshape_features
    simp [hdiv]
  have hnb : nb_features_rounded m input
      = m.num_10ms_times_steps_rounded_to_modem_frames
          (input.length / nb_total_features) := by
    rw [nb_features_rounded, hfr]
    simp
  constructor
  · rw [features_of, hfr, hnb]
    simp
  · intro i hi
    rw [features_of, hfr, hnb] at hi ⊢
    rw [List.length_map, List.length_take, List.length_map, List.length_range] at hi
    have hi2 : i < ((((List.range (input.length / nb_total_features)).map
        (frameAt input)).take (m.num_10ms_times_steps_rounded_to_modem_frames
          (input.length / nb_total_features))).map
        (fun fr => fr.take num_used_features)).length := by
      simpa using hi
    rw [List.getD_eq_getElem?_getD, List.getElem?_eq_getElem hi2]
    have hmin : min num_used_features nb_total_features = num_used_features := by
      unfold num_used_features nb_total_features
      norm_num
    simp [frameAt, ← List.map_take, List.take_range, hmin]

/-- Witness for C3 at a concrete input of two 36-float frames. -/
theorem c3_preprocessing_witness :
    (features_of testModel (List.replicate 72 1)).length
        = min (testModel.num_10ms_times_steps_rounded_to_modem_frames
                ((List.replicate 72 (1 : F32)).length / nb_total_features))
              ((List.replicate 72 (1 : F32)).length / nb_total_features)
    ∧ ∀ i, i < (features_of testModel (List.replicate 72 1)).length →
        (features_of testModel (List.replicate 72 1)).getD i []
          = (List.range num_used_features).map
              (fun j => (List.replicate 72 (1 : F32)).getD (i * nb_total_features + j) 0) :=
  c3_preprocessing testModel (List.replicate 72 1) (by decide)

/-- C6: the encoder is applied once, both decoder variants consume that
same latent sequence (the stateful one with the copied batch weights),
and the run prints exactly one loss line, carrying the three distortions
input-vs-batch, input-vs-stateful and batch-vs-stateful. -/
theorem c6_single_latent_three_losses (m : RADAE) (loss_test : F32) (input : List F32)
    (hdiv : input.length % nb_total_features = 0) :
    ∃ out, run m loss_test input = .ok out
      ∧ features_hat_of m input = m.core_decoder_fun m.core_decoder_sd (z_of m input)
      ∧ features_hat_statefull_of m input
          = m.core_decoder_statefull_fun m.core_decoder_sd (z_of m input)
      ∧ out.stdout.countP isLossLine = 1
      ∧ OutLine.losses
          (m.distortion_loss (features_of m input) (features_hat_of m input))
          (m.distortion_loss (features_of m input) (features_hat_statefull_of m input))
          (m.distortion_loss (features_hat_of m input) (features_hat_statefull_of m input))
          ∈ out.stdout := by
  refine ⟨{ stdout := stdout_of m loss_test input, out_file := out_file_of m input },
    ?_, rfl, rfl, ?_, ?_⟩
  · unfold run reshape_features
    simp [hdiv]
  · show (stdout_of m loss_test input).countP isLossLine = 1
    unfold stdout_of
    rcases lt_or_le 0 loss_test with h | h
    · rw [if_pos h]
      by_cases hc : loss_statefull_of m input < loss_test ∧ loss_delta_of m input < 1/100
      · rw [if_pos hc]
        simp [List.countP_cons, isLossLine]
      · rw [if_neg hc]
        simp [List.countP_cons, isLossLine]
    · rw [if_neg (not_lt.mpr h)]
      simp [List.countP_cons, isLossLine]
  · show _ ∈ stdout_of m loss_test input
    unfold stdout_of
    rw [loss_of, loss_statefull_of, loss_delta_of]
    simp

/-- Witness for C6 at a concrete model and input. -/
theorem c6_single_latent_three_losses_witness :
    ∃ out, run testModel 0 (List.replicate 72 1) = .ok out
      ∧ features_hat_of testModel (List.replicate 72 1)
          = testModel.core_decoder_fun testModel.core_decoder_sd
              (z_of testModel (List.replicate 72 1))
      ∧ features_hat_statefull_of testModel (List.replicate 72 1)
          = testModel.core_decoder_statefull_fun testModel.core_decoder_sd
              (z_of testModel (List.replicate 72 1))
      ∧ out.stdout.countP isLossLine = 1
      ∧ OutLine.losses
          (testModel.distortion_loss (features_of testModel (List.replicate 72 1))
            (features_hat_of testModel (List.replicate 72 1)))
          (testModel.distortion_loss (features_of testModel (List.replicate 72 1))
            (features_hat_statefull_of testModel (List.replicate 72 1)))
          (testModel.distortion_loss (features_hat_of testModel (List.replicate 72 1))
            (features_hat_statefull_of testModel (List.replicate 72 1)))
          ∈ out.stdout :=
  c6_single_latent_three_losses testModel 0 (List.replicate 72 1) (by decide)

/-- Flattening a list of equal-width rows yields `rows * width` entries. -/
theorem flatten_length_uniform {α : Type _} (L : List (List α)) (w : Nat)
    (hw : ∀ l ∈ L, l.length = w) : L.flatten.length = L.length * w := by
  induction L with
  | nil => simp
  | cons a L ih =>
    have ha : a.length = w := hw a (List.mem_cons_self a L)
    have hL : ∀ l ∈ L, l.length = w := fun l hl => hw l (List.mem_cons_of_mem a hl)
    simp [ha, ih hL, Nat.succ_mul, Nat.add_comm]

/-- Indexing the flattening of equal-width rows: entry `i * w + j` is
entry `j` of row `i`. -/
theorem flatten_getD_uniform {α : Type _} (L : List (List α)) (w : Nat)
    (hw : ∀ l ∈ L, l.length = w) (i j : Nat) (hi : i < L.length) (hj : j < w)
    (d : α) : L.flatten.getD (i * w + j) d = (L.getD i []).getD j d := by
  induction L generalizing i with
  | nil => exact absurd hi (Nat.not_lt_zero i)
  | cons a L ih =>
    have ha : a.length = w := hw a (List.mem_cons_self a L)
    have hL : ∀ l ∈ L, l.length = w := fun l hl => hw l (List.mem_cons_of_mem a hl)
    cases i with
    | zero =>
      have hja : j < a.length := ha ▸ hj
      rw [List.flatten_cons, Nat.zero_mul, Nat.zero_add,
        List.getD_eq_getElem?_getD, List.getElem?_append_left hja]
      simp [List.getD_eq_getElem?_getD]
    | succ i =>
      have harith : (i + 1) * w + j = a.length + (i * w + j) := by
        rw [ha, Nat.succ_mul]
        omega
      have hrec := ih hL i (Nat.lt_of_succ_lt_succ hi)
      simp only [List.flatten_cons, List.getD_eq_getElem?_getD] at hrec ⊢
      rw [harith, List.getElem?_append_right (Nat.le_add_right a.length _),
        Nat.add_sub_cancel_left]
      simpa using hrec

/-- Indexing a mapped list below its length. -/
theorem getD_map_lt {α β : Type _} (f : α → β) (L : List α) (i : Nat)
    (h : i < L.length) (d : α) (e : β) : (L.map f).getD i e = f (L.getD i d) := by
  rw [List.getD_eq_getElem?_getD, List.getD_eq_getElem?_getD, List.getElem?_map,
    List.getElem?_eq_getElem h]
  simp

/-- An in-bounds `getD` is a member of the list. -/
theorem getD_mem_of_lt {α : Type _} (L : List α) (i : Nat) (h : i < L.length)
    (d : α) : L.getD i d ∈ L := by
  rw [List.getD_eq_getElem?_getD, List.getElem?_eq_getElem h]
  exact List.getElem_mem h

/-- An in-bounds index into a replicated list reads the repeated value. -/
theorem getD_replicate_lt {α : Type _} (n k : Nat) (h : k < n) (a d : α) :
    (List.replicate n a).getD k d = a := by
  rw [List.getD_eq_getElem?_getD, List.getElem?_eq_getElem (by simpa using h)]
  simp

/-- C2: a completing run writes exactly (rounded frame count) × 36
floats (4 bytes each in the `.f32` file), where channels 20..35 of every
frame are zero and channels 0..19 are the stateful decoder's output. -/
theorem c2_output_file (m : RADAE) (loss_test : F32) (input : List F32)
    (hdiv : input.length % nb_total_features = 0)
    (hshape : DecoderShapeOK m) (hround : RoundingOK m) :
    ∃ out, run m loss_test input = .ok out
      ∧ out.out_file.length = nb_features_rounded m input * nb_total_features
      ∧ (∀ i j, i < nb_features_rounded m input →
          num_used_features ≤ j → j < nb_total_features →
          out.out_file.getD (i * nb_total_features + j) 1 = 0)
      ∧ (∀ i j, i < nb_features_rounded m input → j < num_used_features →
          out.out_file.getD (i * nb_total_features + j) 0
            = ((features_hat_statefull_of m input).getD i []).getD j 0) := by
  have hframes_len : (frames_of input).length = input.length / nb_total_features := by
    unfold frames_of reshape_features
    simp [hdiv]
  have hrle : nb_features_rounded m input ≤ (frames_of input).length := by
    rw [nb_features_rounded]
    exact hround _
  have hfeat_len : (features_of m input).length = nb_features_rounded m input := by
    rw [features_of, List.length_map, List.length_take]
    exact Nat.min_eq_left hrle
  have hfhs : features_hat_statefull_of m input
      = m.core_decoder_statefull_fun m.core_decoder_sd
          (m.core_encoder (features_of m input)) := rfl
  obtain ⟨hfhs_len, hfhs_w⟩ := hshape m.core_decoder_sd (features_of m input)
  rw [← hfhs] at hfhs_len hfhs_w
  have hfhs_r : (features_hat_statefull_of m input).length = nb_features_rounded m input := by
    rw [hfhs_len, hfeat_len]
  have hpad_w : ∀ fr ∈ pad_statefull (features_hat_statefull_of m input),
      fr.length = nb_total_features := by
    intro fr hfr
    rw [pad_statefull] at hfr
    obtain ⟨fr0, hfr0, rfl⟩ := List.mem_map.mp hfr
    have h20 := hfhs_w fr0 hfr0
    rw [List.length_append, List.length_replicate, h20]
    rfl
  have hpad_len : (pad_statefull (features_hat_statefull_of m input)).length
      = nb_features_rounded m input := by
    rw [pad_statefull, List.length_map, hfhs_r]
  refine ⟨{ stdout := stdout_of m loss_test input, out_file := out_file_of m input },
    ?_, ?_, ?_, ?_⟩
  · unfold run reshape_features
    simp [hdiv]
  · show (out_file_of m input).length = _
    rw [out_file_of, flatten_length_uniform _ nb_total_features hpad_w, hpad_len]
  · intro i j hi hj1 hj2
    show (out_file_of m input).getD (i * nb_total_features + j) 1 = 0
    rw [out_file_of,
      flatten_getD_uniform _ nb_total_features hpad_w i j (hpad_len ▸ hi) hj2 1]
    have hi' : i < (features_hat_statefull_of m input).length := hfhs_r ▸ hi
    rw [pad_statefull, getD_map_lt _ _ i hi' []]
    have h20 : ((features_hat_statefull_of m input).getD i []).length
        = num_used_features :=
      hfhs_w _ (getD_mem_of_lt _ i hi' [])
    rw [List.getD_eq_getElem?_getD,
      List.getElem?_append_right (h20 ▸ hj1), h20]
    have hmin : min num_used_features 16 = 16 := rfl
    have hjlt : j - num_used_features < 16 := by
      unfold num_used_features at hj1 ⊢
      unfold nb_total_features at hj2
      omega
    rw [hmin, ← List.getD_eq_getElem?_getD]
    exact getD_replicate_lt 16 (j - num_used_features) hjlt 0 1
  · intro i j hi hj
    show (out_file_of m input).getD (i * nb_total_features + j) 0
        = ((features_hat_statefull_of m input).getD i []).getD j 0
    have hj36 : j < nb_total_features := by
      unfold num_used_features at hj
      unfold nb_total_features
      omega
    rw [out_file_of,
      flatten_getD_uniform _ nb_total_features hpad_w i j (hpad_len ▸ hi) hj36 0]
    have hi' : i < (features_hat_statefull_of m input).length := hfhs_r ▸ hi
    rw [pad_statefull, getD_map_lt _ _ i hi' []]
    have h20 : ((features_hat_statefull_of m input).getD i []).length
        = num_used_features :=
      hfhs_w _ (getD_mem_of_lt _ i hi' [])
    rw [List.getD_eq_getElem?_getD, List.getElem?_append_left (h20 ▸ hj),
      ← List.getD_eq_getElem?_getD]

/-- Witness for C2 at a concrete model and a two-frame input. -/
theorem c2_output_file_witness :
    ∃ out, run testModel 0 (List.replicate 72 1) = .ok out
      ∧ out.out_file.length
          = nb_features_rounded testModel (List.replicate 72 1) * nb_total_features
      ∧ (∀ i j, i < nb_features_rounded testModel (List.replicate 72 1) →
          num_used_features ≤ j → j < nb_total_features →
          out.out_file.getD (i * nb_total_features + j) 1 = 0)
      ∧ (∀ i j, i < nb_features_rounded testModel (List.replicate 72 1) →
          j < num_used_features →
          out.out_file.getD (i * nb_total_features + j) 0
            = ((features_hat_statefull_of testModel (List.replicate 72 1)).getD i []).getD j 0) :=
  c2_output_file testModel 0 (List.replicate 72 1) (by decide)
    (by
      intro sd fs
      refine ⟨by simp [testModel], ?_⟩
      intro fr hfr
      simp only [testModel, List.mem_map] at hfr
      obtain ⟨fr0, _, rfl⟩ := hfr
      simp)
    (by
      intro n
      simp only [testModel]
      omega)

/-- A non-flag token differs from the `--latent-dim` flag. -/
theorem ne_latent_of_not_flag {s : String} (h : isFlag s = false) :
    ¬ (s = "--latent-dim") := by
  intro hs
  subst hs
  exact absurd h (by decide)

/-- A non-flag token differs from the `--loss_test` flag. -/
theorem ne_losstest_of_not_flag {s : String} (h : isFlag s = false) :
    ¬ (s = "--loss_test") := by
  intro hs
  subst hs
  exact absurd h (by decide)

/-- A non-flag token is consumed as the next positional argument. -/
theorem parseArgsAux_positional (t : String) (h : isFlag t = false)
    (rest pos : List String) (ld : Int) (lt : F32) :
    parseArgsAux (t :: rest) pos ld lt = parseArgsAux rest (pos ++ [t]) ld lt := by
  have h3 : ¬ (isFlag t = true) := by simp [h]
  conv_lhs => rw [parseArgsAux.eq_def]
  dsimp only
  rw [if_neg (ne_latent_of_not_flag h), if_neg (ne_losstest_of_not_flag h), if_neg h3]

/-- C8: the command line takes exactly the three positionals
`model_name features features_hat` — two or four positionals are
rejected — and the optional flags `--latent-dim` and `--loss_test`
default to 80 and 0.0 when omitted and take supplied values otherwise. -/
theorem c8_cli (mn f fh g : String)
    (h1 : isFlag mn = false) (h2 : isFlag f = false)
    (h3 : isFlag fh = false) (h4 : isFlag g = false) :
    parseArgs [mn, f, fh]
        = .ok { model_name := mn, features := f, features_hat := fh
                latent_dim := 80, loss_test := 0 }
    ∧ (∃ e, parseArgs [mn, f] = .error e)
    ∧ (∃ e, parseArgs [mn, f, fh, g] = .error e)
    ∧ parseArgs [mn, f, fh, "--latent-dim", "64", "--loss_test", "0.25"]
        = .ok { model_name := mn, features := f, features_hat := fh
                latent_dim := 64, loss_test := 1/4 } := by
  refine ⟨?_, ?_, ?_, ?_⟩
  · rw [parseArgs, parseArgsAux_positional mn h1, parseArgsAux_positional f h2,
      parseArgsAux_positional fh h3]
    rfl
  · rw [parseArgs, parseArgsAux_positional mn h1, parseArgsAux_positional f h2]
    exact ⟨_, rfl⟩
  · rw [parseArgs, parseArgsAux_positional mn h1, parseArgsAux_positional f h2,
      parseArgsAux_positional fh h3, parseArgsAux_positional g h4]
    exact ⟨_, rfl⟩
  · rw [parseArgs, parseArgsAux_positional mn h1, parseArgsAux_positional f h2,
      parseArgsAux_positional fh h3]
    have e1 : parseArgsAux ["--latent-dim", "64", "--loss_test", "0.25"]
        ([] ++ [mn] ++ [f] ++ [fh]) 80 0
        = .ok ([] ++ [mn] ++ [f] ++ [fh], 64,
            ((0 : Int) : F32) + ((25 : Nat) : F32) / (10 : F32) ^ 2) := rfl
    rw [e1]
    have e2 : ((0 : Int) : F32) + ((25 : Nat) : F32) / (10 : F32) ^ 2 = 1/4 := by
      norm_num
    rw [e2]
    rfl

/-- Witness for C8 at concrete path tokens. -/
theorem c8_cli_witness :
    parseArgs ["model.pth", "in.f32", "out.f32"]
        = .ok { model_name := "model.pth", features := "in.f32", features_hat := "out.f32"
                latent_dim := 80, loss_test := 0 }
    ∧ (∃ e, parseArgs ["model.pth", "in.f32"] = .error e)
    ∧ (∃ e, parseArgs ["model.pth", "in.f32", "out.f32", "extra"] = .error e)
    ∧ parseArgs ["model.pth", "in.f32", "out.f32", "--latent-dim", "64", "--loss_test", "0.25"]
        = .ok { model_name := "model.pth", features := "in.f32", features_hat := "out.f32"
                latent_dim := 64, loss_test := 1/4 } :=
  c8_cli "model.pth" "in.f32" "out.f32" "extra"
    (by decide) (by decide) (by decide) (by decide)

end StatefulDecoder
